import Mathlib

/-!
Shallow embedding of the content query & engagement subsystem of the blog
backend (post controller in src/server.js, user controller in
src/unnamed/part_000).  Posts, users and requests are modelled as plain
data; the persistent store is a `List Post` (resp. `List Nat` of user ids)
and every controller is a function from the store and the request data to
an `Except ErrorResponse` result, returning the updated store on success.
-/

namespace Blog

/-- Requester role, from the User model referenced by the controllers. -/
inductive Role
  | user
  | admin
  deriving DecidableEq, Repr

/-- The authenticated identity `req.user` resolved by the auth middleware:
an id together with a role. -/
structure Requester where
  id : Nat
  role : Role
  deriving DecidableEq, Repr

/-- Post status, the enum {draft, published, archived} of the Post model. -/
inductive Status
  | draft
  | published
  | archived
  deriving DecidableEq, Repr

/-- One entry of `post.likes`: {user, timestamp}. -/
structure Like where
  user : Nat
  timestamp : Nat
  deriving DecidableEq, Repr

/-- One entry of `post.comments`: {user, text}. -/
structure Comment where
  user : Nat
  text : String
  deriving DecidableEq, Repr

/-- The Post aggregate as used by the controllers in src/server.js. -/
structure Post where
  id : Nat
  title : String
  content : String
  excerpt : Option String
  author : Nat
  status : Status
  slug : String
  category : Option String
  tags : List String
  views : Nat
  likes : List Like
  comments : List Comment
  publishedAt : Option Nat
  createdAt : Nat
  deriving DecidableEq, Repr

/-- ErrorResponse from src/middlewares/errorHandler.js: a message and an
HTTP status code. -/
structure ErrorResponse where
  message : String
  statusCode : Nat
  deriving DecidableEq, Repr

/-- `mongoose Document.save` / `findByIdAndUpdate` persisting one post back
into the store: the document with the same id is replaced. -/
def save (db : List Post) (p : Post) : List Post :=
  db.map (fun q => if q.id == p.id then p else q)

/-- The store after an operation: the updated store on success, the
original store when the operation failed before persisting anything. -/
def stateAfter {α : Type} (db : List Post) :
    Except ErrorResponse (α × List Post) → List Post
  | Except.ok (_, db2) => db2
  | Except.error _ => db

/-- JavaScript `String.prototype.trim`: strip leading and trailing
whitespace. -/
def jsTrim (s : String) : String :=
  String.mk (((s.data.dropWhile Char.isWhitespace).reverse.dropWhile
    Char.isWhitespace).reverse)

/-- The condition under which the controllers treat an unpublished post as
invisible: `!req.user || (req.user.id !== post.author && req.user.role !==
"admin")`. -/
def notOwnerNorAdmin (post : Post) : Option Requester → Prop
  | none => True
  | some u => u.id ≠ post.author ∧ u.role ≠ Role.admin

instance (post : Post) : (user : Option Requester) →
    Decidable (notOwnerNorAdmin post user)
  | none => isTrue trivial
  | some u =>
      inferInstanceAs (Decidable (u.id ≠ post.author ∧ u.role ≠ Role.admin))

/-- The view-count condition: `!req.user || req.user.id !== post.author`. -/
def notAuthor (post : Post) : Option Requester → Prop
  | none => True
  | some u => u.id ≠ post.author

instance (post : Post) : (user : Option Requester) →
    Decidable (notAuthor post user)
  | none => isTrue trivial
  | some u => inferInstanceAs (Decidable (u.id ≠ post.author))

/-- getPost (src/server.js): look the post up by id; hide unpublished posts
from non-owner non-admin requesters as a 404; increment views on a
successful read unless the requester is the author. -/
def getPost (db : List Post) (pid : Nat) (user : Option Requester) :
    Except ErrorResponse (Post × List Post) :=
  match db.find? (fun p => p.id == pid) with
  | none => Except.error ⟨"Post not found", 404⟩
  | some post =>
      if post.status ≠ Status.published ∧ notOwnerNorAdmin post user then
        Except.error ⟨"Post not found", 404⟩
      else if notAuthor post user then
        let post2 := { post with views := post.views + 1 }
        Except.ok (post2, save db post2)
      else
        Except.ok (post, db)

/-- getPostBySlug (src/server.js): as getPost but looked up by slug. -/
def getPostBySlug (db : List Post) (slugq : String) (user : Option Requester) :
    Except ErrorResponse (Post × List Post) :=
  match db.find? (fun p => p.slug == slugq) with
  | none => Except.error ⟨"Post not found", 404⟩
  | some post =>
      if post.status ≠ Status.published ∧ notOwnerNorAdmin post user then
        Except.error ⟨"Post not found", 404⟩
      else if notAuthor post user then
        let post2 := { post with views := post.views + 1 }
        Except.ok (post2, save db post2)
      else
        Except.ok (post, db)

/-- The request body of createPost/updatePost: every recognised field may be
present or absent, exactly as `req.body` after JSON parsing. -/
structure PostBody where
  title : Option String
  content : Option String
  excerpt : Option String
  category : Option String
  tags : Option (List String)
  status : Option Status
  author : Option Nat
  deriving DecidableEq, Repr

/-- The express-validator chains in the post routes call `.trim()` as a
sanitizer, replacing each string field of the body by its trimmed value. -/
def sanitizeBody (b : PostBody) : PostBody :=
  { b with
    title := b.title.map jsTrim
    content := b.content.map jsTrim
    excerpt := b.excerpt.map jsTrim
    category := b.category.map jsTrim }

/-- postValidation (src/routes, post routes): title between 5 and 100
characters, content at least 50, excerpt at most 300, category between 2
and 50; tags and status are constrained by their types here. -/
def postValidationOk (b : PostBody) : Bool :=
  (match b.title with
   | some t => decide (5 ≤ t.length) && decide (t.length ≤ 100)
   | none => false) &&
  (match b.content with
   | some c => decide (50 ≤ c.length)
   | none => false) &&
  (match b.excerpt with
   | some e => decide (e.length ≤ 300)
   | none => true) &&
  (match b.category with
   | some c => decide (2 ≤ c.length) && decide (c.length ≤ 50)
   | none => true)

/-- Modelled from the spec: the store collaborator's `updateById(id, patch)`
(the Mongoose model and store are not under src/).  Per the spec, "update is
applied as a full-document replace-merge (unspecified fields in payload keep
prior values)": every field present in the patch replaces the stored value,
every absent field keeps it. -/
def applyUpdate (p : Post) (b : PostBody) : Post :=
  { p with
    title := b.title.getD p.title
    content := b.content.getD p.content
    excerpt := match b.excerpt with | some e => some e | none => p.excerpt
    category := match b.category with | some c => some c | none => p.category
    tags := b.tags.getD p.tags
    status := b.status.getD p.status
    author := b.author.getD p.author }

/-- createPost (src/server.js): validate, then force `req.body.author =
req.user.id` and insert the new document.  Modelled from the spec where the
Post model is missing from src/: the fresh id and the slug derived from the
title are supplied by the store (`freshId`, `slug`), schema defaults are
views = 0 and empty likes/comments with status defaulting to draft, and
`publishedAt` is set iff the initial status is published. -/
def createPost (db : List Post) (body : PostBody) (user : Requester)
    (freshId : Nat) (slug : String) (now : Nat) :
    Except ErrorResponse (Post × List Post) :=
  let b := sanitizeBody body
  if !postValidationOk b then
    Except.error ⟨"Validation failed", 400⟩
  else
    let b2 := { b with author := some user.id }
    let post : Post :=
      { id := freshId
        title := b2.title.getD ""
        content := b2.content.getD ""
        excerpt := b2.excerpt
        author := b2.author.getD 0
        status := b2.status.getD Status.draft
        slug := slug
        category := b2.category
        tags := b2.tags.getD []
        views := 0
        likes := []
        comments := []
        publishedAt :=
          if b2.status.getD Status.draft = Status.published then some now
          else none
        createdAt := now }
    Except.ok (post, db ++ [post])

/-- updatePost (src/server.js): 404 when the post does not exist, then 403
when the requester is neither the owner nor an admin, then the validation
check, then `findByIdAndUpdate(id, req.body)`. -/
def updatePost (db : List Post) (pid : Nat) (body : PostBody)
    (user : Requester) : Except ErrorResponse (Post × List Post) :=
  match db.find? (fun p => p.id == pid) with
  | none => Except.error ⟨"Post not found", 404⟩
  | some post =>
      if post.author ≠ user.id ∧ user.role ≠ Role.admin then
        Except.error ⟨"Not authorized to update this post", 403⟩
      else
        let b := sanitizeBody body
        if !postValidationOk b then
          Except.error ⟨"Validation failed", 400⟩
        else
          let post2 := applyUpdate post b
          Except.ok (post2, save db post2)

/-- deletePost (src/server.js): 404 when the post does not exist, 403 when
the requester is neither the owner nor an admin, else remove the document
(and with it its embedded comments and likes). -/
def deletePost (db : List Post) (pid : Nat) (user : Requester) :
    Except ErrorResponse (Unit × List Post) :=
  match db.find? (fun p => p.id == pid) with
  | none => Except.error ⟨"Post not found", 404⟩
  | some post =>
      if post.author ≠ user.id ∧ user.role ≠ Role.admin then
        Except.error ⟨"Not authorized to delete this post", 403⟩
      else
        Except.ok ((), db.filter (fun p => !(p.id == pid)))

/-- The response body of likePost: message, likesCount and the new isLiked
flag. -/
structure LikeResult where
  message : String
  likesCount : Nat
  isLiked : Bool
  deriving DecidableEq, Repr

/-- likePost (src/server.js): 404 when the post does not exist; otherwise
toggle — if some like belongs to the requester remove the requester's
entries, else push {user, timestamp}; report the new count and flag. -/
def likePost (db : List Post) (pid : Nat) (user : Requester) (now : Nat) :
    Except ErrorResponse (LikeResult × List Post) :=
  match db.find? (fun p => p.id == pid) with
  | none => Except.error ⟨"Post not found", 404⟩
  | some post =>
      let isLiked := post.likes.any (fun l => l.user == user.id)
      let newLikes :=
        if isLiked then post.likes.filter (fun l => !(l.user == user.id))
        else post.likes ++ [⟨user.id, now⟩]
      let post2 := { post with likes := newLikes }
      Except.ok
        ({ message := if isLiked then "Post unliked" else "Post liked"
           likesCount := newLikes.length
           isLiked := !isLiked }, save db post2)

/-- Modelled from the spec: the Post model (models/Post.js) is not under
src/; per the spec's validation requirement on comments ("reject with a
validation error if text is empty"), saving a post whose comments contain
an entry with empty text fails Mongoose validation. -/
def commentsValid (l : List Comment) : Bool :=
  l.all (fun c => !(c.text == ""))

/-- addComment (src/server.js): reject missing/empty text with a 400; 404
when the post does not exist; otherwise push {user, text.trim()} and save
(the save being subject to the model validation `commentsValid`); the newly
added comment — the last element after the push — is returned. -/
def addComment (db : List Post) (pid : Nat) (user : Requester)
    (text : String) : Except ErrorResponse (Comment × List Post) :=
  if text == "" then
    Except.error ⟨"Comment text is required", 400⟩
  else
    match db.find? (fun p => p.id == pid) with
    | none => Except.error ⟨"Post not found", 404⟩
    | some post =>
        let newComment : Comment := ⟨user.id, jsTrim text⟩
        let post2 := { post with comments := post.comments ++ [newComment] }
        if !commentsValid post2.comments then
          Except.error ⟨"Post validation failed", 400⟩
        else
          Except.ok (post2.comments.getLastD ⟨0, ""⟩, save db post2)

/-- The request parameters of getPosts, as parsed from the query string:
page and limit are `parseInt(...) || default` (none models a missing or
non-numeric value), tags is the raw comma-separated string. -/
structure ListParams where
  page : Option Int
  limit : Option Int
  category : Option String
  tags : Option String
  search : Option String
  author : Option Nat
  sort : Option String
  deriving DecidableEq, Repr

/-- `parseInt(req.query.page, 10) || 1`: missing/NaN and 0 fall back to 1. -/
def pageDefault (o : Option Int) : Int :=
  match o with
  | none => 1
  | some n => if n = 0 then 1 else n

/-- `parseInt(req.query.limit, 10) || 10`: missing/NaN and 0 fall back
to 10. -/
def limitDefault (o : Option Int) : Int :=
  match o with
  | none => 10
  | some n => if n = 0 then 10 else n

/-- The sort options object built by getPosts. -/
inductive SortChoice
  | publishedAtDesc
  | publishedAtAsc
  | viewsDesc
  | likesLenDesc
  deriving DecidableEq, Repr

/-- getPosts sort switch: "oldest", "popular", "liked" are recognised;
anything else (including no sort parameter) means newest first. -/
def sortChoiceOf (s : Option String) : SortChoice :=
  match s with
  | some "oldest" => SortChoice.publishedAtAsc
  | some "popular" => SortChoice.viewsDesc
  | some "liked" => SortChoice.likesLenDesc
  | _ => SortChoice.publishedAtDesc

/-- The query object built by getPosts: status "published" always, then
category, tags ($in over the comma-split list), $text search (the store's
text index, passed in as the opaque predicate `textPred`), and author. -/
def postsQueryMatches (textPred : String → Post → Bool) (params : ListParams)
    (p : Post) : Bool :=
  (p.status == Status.published) &&
  (match params.category with
   | some c => p.category == some c
   | none => true) &&
  (match params.tags with
   | some ts => (ts.splitOn ",").any (fun t => p.tags.contains t)
   | none => true) &&
  (match params.search with
   | some s => textPred s p
   | none => true) &&
  (match params.author with
   | some a => p.author == a
   | none => true)

/-- A page reference {page, limit} inside the pagination metadata. -/
structure PageRef where
  page : Int
  limit : Int
  deriving DecidableEq, Repr

/-- The pagination metadata object: next/prev present or absent. -/
structure Pagination where
  next : Option PageRef
  prev : Option PageRef
  deriving DecidableEq, Repr

/-- The pagination block shared verbatim by getPosts (src/server.js) and
getUsers (src/unnamed/part_000): next iff startIndex + limit < total, prev
iff startIndex > 0. -/
def paginationOf (page limit : Int) (total : Nat) : Pagination :=
  { next :=
      if (page - 1) * limit + limit < (total : Int) then
        some ⟨page + 1, limit⟩
      else none
    prev :=
      if (page - 1) * limit > 0 then some ⟨page - 1, limit⟩
      else none }

/-- The getPosts response envelope: count of the returned page, total
matching the query, pagination metadata, and the page of posts. -/
structure PostsList where
  count : Nat
  total : Nat
  pagination : Pagination
  posts : List Post
  deriving DecidableEq, Repr

/-- getPosts (src/server.js): build the query, count all matching
documents, fetch the sorted page (the store's sort is the opaque
`storeSort`, a function of the sort options), and attach the pagination
metadata. -/
def getPosts (textPred : String → Post → Bool)
    (storeSort : SortChoice → List Post → List Post)
    (db : List Post) (params : ListParams) : PostsList :=
  let page := pageDefault params.page
  let limit := limitDefault params.limit
  let startIndex := (page - 1) * limit
  let matched := db.filter (postsQueryMatches textPred params)
  let total := matched.length
  let posts :=
    ((storeSort (sortChoiceOf params.sort) matched).drop
      startIndex.toNat).take limit.toNat
  { count := posts.length
    total := total
    pagination := paginationOf page limit total
    posts := posts }

/-- A User document as read by the user controller
(src/unnamed/part_000). -/
structure UserDoc where
  id : Nat
  name : String
  email : String
  role : Role
  isActive : Bool
  deriving DecidableEq, Repr

/-- The request parameters of getUsers. -/
structure UsersParams where
  page : Option Int
  limit : Option Int
  role : Option Role
  isActive : Option Bool
  search : Option String
  deriving DecidableEq, Repr

/-- The query object built by getUsers: role, isActive, and the $or regex
search over name/email (the store's regex matching passed in as the opaque
predicate `searchPred`). -/
def usersQueryMatches (searchPred : String → UserDoc → Bool)
    (params : UsersParams) (u : UserDoc) : Bool :=
  (match params.role with
   | some r => u.role == r
   | none => true) &&
  (match params.isActive with
   | some b => u.isActive == b
   | none => true) &&
  (match params.search with
   | some s => searchPred s u
   | none => true)

/-- The getUsers response envelope. -/
structure UsersList where
  count : Nat
  total : Nat
  pagination : Pagination
  users : List UserDoc
  deriving DecidableEq, Repr

/-- getUsers (src/unnamed/part_000): same paging and pagination-metadata
logic as getPosts, over the users collection sorted by createdAt
descending (the opaque `storeSort`). -/
def getUsers (searchPred : String → UserDoc → Bool)
    (storeSort : List UserDoc → List UserDoc)
    (dbU : List UserDoc) (params : UsersParams) : UsersList :=
  let page := pageDefault params.page
  let limit := limitDefault params.limit
  let startIndex := (page - 1) * limit
  let matched := dbU.filter (usersQueryMatches searchPred params)
  let total := matched.length
  let users := ((storeSort matched).drop startIndex.toNat).take limit.toNat
  { count := users.length
    total := total
    pagination := paginationOf page limit total
    users := users }

/-- The query object built by getUserPosts: author always, status
conditionally. -/
structure UserPostsQuery where
  author : Nat
  status : Option Status
  deriving DecidableEq, Repr

/-- The getUserPosts condition `req.user?.id !== req.params.id &&
req.user?.role !== "admin"`: for an anonymous requester both optional
chainings yield undefined, so the condition holds. -/
def userPostsRestricted (targetId : Nat) : Option Requester → Bool
  | none => true
  | some u => !(u.id == targetId) && !(u.role == Role.admin)

/-- The query getUserPosts runs against the posts collection: `{author:
id}` plus `status: "published"` exactly when the restriction applies. -/
def userPostsQuery (targetId : Nat) (requester : Option Requester) :
    UserPostsQuery :=
  { author := targetId
    status :=
      if userPostsRestricted targetId requester then some Status.published
      else none }

/-- Evaluation of a UserPostsQuery against one post. -/
def userPostsMatches (q : UserPostsQuery) (p : Post) : Bool :=
  (p.author == q.author) &&
  (match q.status with
   | some s => p.status == s
   | none => true)

/-- The getUserPosts / getMyPosts response envelope (no pagination block in
the source). -/
structure CountedPosts where
  count : Nat
  total : Nat
  posts : List Post
  deriving DecidableEq, Repr

/-- getUserPosts (src/unnamed/part_000): look the target user up first and
fail 404 when absent, before any query against the posts collection; then
count and fetch the page matching `userPostsQuery`. -/
def getUserPosts (users : List Nat) (db : List Post) (targetId : Nat)
    (requester : Option Requester)
    (storeSort : List Post → List Post)
    (pageQ limitQ : Option Int) : Except ErrorResponse CountedPosts :=
  if !users.contains targetId then
    Except.error ⟨"User not found", 404⟩
  else
    let page := pageDefault pageQ
    let limit := limitDefault limitQ
    let startIndex := (page - 1) * limit
    let q := userPostsQuery targetId requester
    let matched := db.filter (userPostsMatches q)
    let total := matched.length
    let posts :=
      ((storeSort matched).drop startIndex.toNat).take limit.toNat
    Except.ok { count := posts.length, total := total, posts := posts }

/-- Boolean membership in a list of user ids, structurally. -/
def memB : List Nat → Nat → Bool
  | [], _ => false
  | b :: t, a => (b == a) || memB t a

/-- Boolean no-duplicates check on a list of user ids. -/
def nodupB : List Nat → Bool
  | [] => true
  | a :: l => !memB l a && nodupB l

/-- The data-model invariant: in every post, a userId appears at most once
in likes. -/
def likesOk (db : List Post) : Bool :=
  db.all (fun p => nodupB (p.likes.map Like.user))

/-- A sequence of like toggles, each applied to the store left by the
previous one (failed toggles leave the store unchanged). -/
def runToggles (db : List Post) : List (Nat × Requester × Nat) → List Post
  | [] => db
  | (pid, u, t) :: rest =>
      runToggles (stateAfter db (likePost db pid u t)) rest

/-- Whether an operation succeeded. -/
def isOkE {α : Type} : Except ErrorResponse α → Bool
  | Except.ok _ => true
  | Except.error _ => false

/-- The status code of a failed operation. -/
def errStatus {α : Type} : Except ErrorResponse α → Option Nat
  | Except.error e => some e.statusCode
  | Except.ok _ => none

/-- The author of the post returned by a successful mutation. -/
def resultAuthor : Except ErrorResponse (Post × List Post) → Option Nat
  | Except.ok (p, _) => some p.author
  | Except.error _ => none

/-- The like-toggle response of a successful likePost. -/
def okLike : Except ErrorResponse (LikeResult × List Post) → Option LikeResult
  | Except.ok (r, _) => some r
  | Except.error _ => none

/-- The views counter of the post with the given id, as stored. -/
def viewsOf (db : List Post) (pid : Nat) : Option Nat :=
  (db.find? (fun p => p.id == pid)).map Post.views

theorem find?_save (db : List Post) (p post0 : Post) (pid : Nat)
    (hid : p.id = post0.id)
    (h : db.find? (fun q => q.id == pid) = some post0) :
    (save db p).find? (fun q => q.id == pid) = some p := by
  have hp0 : (post0.id == pid) = true := by
    have h0 := List.find?_some h
    simpa using h0
  have hpe : (p.id == pid) = true := by rw [hid]; exact hp0
  induction db with
  | nil => simp [List.find?] at h
  | cons q rest ih =>
      by_cases hq : (q.id == pid) = true
      · have hqp : (q.id == p.id) = true := by
          simp only [beq_iff_eq] at hq hpe ⊢
          rw [hq, hpe]
        simp only [save, List.map_cons]
        rw [if_pos hqp]
        exact List.find?_cons_of_pos (p := fun r : Post => r.id == pid) _ hpe
      · rw [List.find?_cons_of_neg (p := fun r : Post => r.id == pid) rest hq] at h
        have hqp : ¬((q.id == p.id) = true) := by
          simp only [beq_iff_eq] at hq hpe ⊢
          intro hqq
          exact hq (hqq.trans hpe)
        simp only [save, List.map_cons]
        rw [if_neg hqp]
        rw [List.find?_cons_of_neg (p := fun r : Post => r.id == pid) _ hq]
        exact ih h

/-- C3: for every post with status other than published, getPost and
getPostBySlug requested anonymously or by a requester who is neither the
author nor an admin fail with the same "Post not found" 404 error that a
missing post produces, never a 403. -/
theorem unpublished_read_is_not_found (db : List Post) (pid : Nat)
    (slugq : String) (user : Option Requester) :
    (∀ post, db.find? (fun p => p.id == pid) = some post →
       post.status ≠ Status.published →
       (user = none ∨
         (∃ u, user = some u ∧ u.id ≠ post.author ∧ u.role ≠ Role.admin)) →
       getPost db pid user = Except.error ⟨"Post not found", 404⟩) ∧
    (db.find? (fun p => p.id == pid) = none →
       getPost db pid user = Except.error ⟨"Post not found", 404⟩) ∧
    (∀ post, db.find? (fun p => p.slug == slugq) = some post →
       post.status ≠ Status.published →
       (user = none ∨
         (∃ u, user = some u ∧ u.id ≠ post.author ∧ u.role ≠ Role.admin)) →
       getPostBySlug db slugq user = Except.error ⟨"Post not found", 404⟩) ∧
    (db.find? (fun p => p.slug == slugq) = none →
       getPostBySlug db slugq user = Except.error ⟨"Post not found", 404⟩) := by
  have bridge : ∀ post : Post,
      (user = none ∨
        (∃ u, user = some u ∧ u.id ≠ post.author ∧ u.role ≠ Role.admin)) →
      notOwnerNorAdmin post user := by
    intro post h
    rcases h with h | ⟨u, hu, h1, h2⟩
    · subst h; trivial
    · subst hu; exact ⟨h1, h2⟩
  refine ⟨?_, ?_, ?_, ?_⟩
  · intro post hfind hstat huser
    simp only [getPost, hfind]
    rw [if_pos ⟨hstat, bridge post huser⟩]
  · intro hfind
    simp only [getPost, hfind]
  · intro post hfind hstat huser
    simp only [getPostBySlug, hfind]
    rw [if_pos ⟨hstat, bridge post huser⟩]
  · intro hfind
    simp only [getPostBySlug, hfind]

/-- C7: for updatePost and deletePost, a missing post yields the 404
not-found error, and an existing post whose requester is neither the owner
nor an admin yields the 403 authorization error, never a 404. -/
theorem mutate_auth_errors (db : List Post) (pid : Nat) (body : PostBody)
    (user : Requester) :
    (db.find? (fun p => p.id == pid) = none →
       updatePost db pid body user = Except.error ⟨"Post not found", 404⟩ ∧
       deletePost db pid user = Except.error ⟨"Post not found", 404⟩) ∧
    (∀ post, db.find? (fun p => p.id == pid) = some post →
       post.author ≠ user.id → user.role ≠ Role.admin →
       updatePost db pid body user =
         Except.error ⟨"Not authorized to update this post", 403⟩ ∧
       deletePost db pid user =
         Except.error ⟨"Not authorized to delete this post", 403⟩) := by
  refine ⟨?_, ?_⟩
  · intro hfind
    constructor
    · simp only [updatePost, hfind]
    · simp only [deletePost, hfind]
  · intro post hfind h1 h2
    constructor
    · simp only [updatePost, hfind]
      rw [if_pos ⟨h1, h2⟩]
    · simp only [deletePost, hfind]
      rw [if_pos ⟨h1, h2⟩]

theorem stateAfter_of_not_ok {α : Type} (db : List Post)
    (r : Except ErrorResponse (α × List Post)) (h : isOkE r = false) :
    stateAfter db r = db := by
  cases r with
  | ok v => simp [isOkE] at h
  | error e => rfl

/-- C9: a successful getPost increments the stored views counter by
exactly 1 when the requester is anonymous or not the author and leaves the
store untouched when the requester is the author; a failed read leaves the
store unchanged; getPostBySlug behaves the same way. -/
theorem views_increment_on_read (db : List Post) (pid : Nat) (slugq : String)
    (user : Option Requester) :
    (∀ post, db.find? (fun p => p.id == pid) = some post →
       isOkE (getPost db pid user) = true →
       ((user = none ∨ (∃ u, user = some u ∧ u.id ≠ post.author)) →
          stateAfter db (getPost db pid user) =
            save db { post with views := post.views + 1 } ∧
          viewsOf (stateAfter db (getPost db pid user)) pid =
            some (post.views + 1)) ∧
       ((∃ u, user = some u ∧ u.id = post.author) →
          stateAfter db (getPost db pid user) = db ∧
          viewsOf (stateAfter db (getPost db pid user)) pid =
            some post.views)) ∧
    (isOkE (getPost db pid user) = false →
       stateAfter db (getPost db pid user) = db) ∧
    (∀ post, db.find? (fun p => p.slug == slugq) = some post →
       isOkE (getPostBySlug db slugq user) = true →
       ((user = none ∨ (∃ u, user = some u ∧ u.id ≠ post.author)) →
          stateAfter db (getPostBySlug db slugq user) =
            save db { post with views := post.views + 1 }) ∧
       ((∃ u, user = some u ∧ u.id = post.author) →
          stateAfter db (getPostBySlug db slugq user) = db)) ∧
    (isOkE (getPostBySlug db slugq user) = false →
       stateAfter db (getPostBySlug db slugq user) = db) := by
  have bridgeNA : ∀ post : Post,
      (user = none ∨ (∃ u, user = some u ∧ u.id ≠ post.author)) →
      notAuthor post user := by
    intro post h
    rcases h with h | ⟨u, hu, h1⟩
    · subst h; trivial
    · subst hu; exact h1
  refine ⟨?_, stateAfter_of_not_ok db _, ?_, stateAfter_of_not_ok db _⟩
  · intro post hfind hok
    simp only [getPost, hfind] at hok ⊢
    by_cases hh : post.status ≠ Status.published ∧ notOwnerNorAdmin post user
    · rw [if_pos hh] at hok
      simp [isOkE] at hok
    · rw [if_neg hh] at hok ⊢
      by_cases hna : notAuthor post user
      · rw [if_pos hna]
        constructor
        · intro _
          refine ⟨rfl, ?_⟩
          simp only [stateAfter, viewsOf]
          rw [find?_save db { post with views := post.views + 1 } post pid
            rfl hfind]
          rfl
        · rintro ⟨u, hu, heq⟩
          subst hu
          exact absurd heq hna
      · rw [if_neg hna]
        constructor
        · intro hcond
          exact absurd (bridgeNA post hcond) hna
        · intro _
          refine ⟨rfl, ?_⟩
          simp only [stateAfter, viewsOf, hfind]
          rfl
  · intro post hfind hok
    simp only [getPostBySlug, hfind] at hok ⊢
    by_cases hh : post.status ≠ Status.published ∧ notOwnerNorAdmin post user
    · rw [if_pos hh] at hok
      simp [isOkE] at hok
    · rw [if_neg hh] at hok ⊢
      by_cases hna : notAuthor post user
      · rw [if_pos hna]
        constructor
        · intro _
          rfl
        · rintro ⟨u, hu, heq⟩
          subst hu
          exact absurd heq hna
      · rw [if_neg hna]
        constructor
        · intro hcond
          exact absurd (bridgeNA post hcond) hna
        · intro _
          rfl

/-- C2 (amended): author is forced to the requester id at creation, and an
authorized update leaves author unchanged whenever the payload carries no
author field; a payload that does carry an author field overwrites it (see
the counterexample). -/
theorem author_from_requester_and_update (db : List Post) (pid : Nat)
    (body : PostBody) (user : Requester) (freshId now : Nat)
    (slugNew : String) :
    (body.author = none →
      ∀ post, db.find? (fun p => p.id == pid) = some post →
        isOkE (updatePost db pid body user) = true →
        resultAuthor (updatePost db pid body user) = some post.author) ∧
    (isOkE (createPost db body user freshId slugNew now) = true →
      resultAuthor (createPost db body user freshId slugNew now) =
        some user.id) := by
  constructor
  · intro hnone post hfind hok
    simp only [updatePost, hfind] at hok ⊢
    by_cases hauth : post.author ≠ user.id ∧ user.role ≠ Role.admin
    · rw [if_pos hauth] at hok
      simp [isOkE] at hok
    · rw [if_neg hauth] at hok ⊢
      by_cases hval : (!postValidationOk (sanitizeBody body)) = true
      · rw [if_pos hval] at hok
        simp [isOkE] at hok
      · rw [if_neg hval]
        simp only [resultAuthor, applyUpdate, sanitizeBody]
        rw [hnone]
        rfl
  · intro hok
    simp only [createPost] at hok ⊢
    by_cases hval : (!postValidationOk (sanitizeBody body)) = true
    · rw [if_pos hval] at hok
      simp [isOkE] at hok
    · rw [if_neg hval]
      rfl

/-- A 50-character content string satisfying the content validator. -/
def longContent : String := String.mk (List.replicate 50 'a')

/-- A concrete draft post by author 1, used as a shared example input. -/
def cPost : Post :=
  { id := 1
    title := "Hello World"
    content := longContent
    excerpt := none
    author := 1
    status := Status.draft
    slug := "hello-world"
    category := none
    tags := []
    views := 0
    likes := []
    comments := []
    publishedAt := none
    createdAt := 0 }

/-- A concrete valid update payload that also carries an author field. -/
def cBodyAuthor : PostBody :=
  { title := some "Updated Title"
    content := some longContent
    excerpt := none
    category := none
    tags := none
    status := none
    author := some 2 }

/-- C2 counterexample: the owner (author 1) issues an authorized, valid
updatePost whose payload carries author = 2; the stored author changes
from 1 to 2, refuting "the post's author field after the update equals its
author before the update, even when the payload contains an author
field". -/
theorem update_changes_author_counterexample :
    cPost.author = 1 ∧
    resultAuthor (updatePost [cPost] 1 cBodyAuthor ⟨1, Role.user⟩) = some 2 := by
  constructor
  · rfl
  · rfl

theorem addComment_empty_aux (db : List Post) (pid : Nat) (user : Requester)
    (text : String) (htext : (text == "") = true) :
    addComment db pid user text =
      Except.error ⟨"Comment text is required", 400⟩ := by
  simp only [addComment]
  rw [if_pos htext]

theorem addComment_whitespace_aux (db : List Post) (pid : Nat)
    (user : Requester) (text : String) (post : Post)
    (hfind : db.find? (fun p => p.id == pid) = some post)
    (htext : ¬((text == "") = true)) (htrim : jsTrim text = "") :
    addComment db pid user text =
      Except.error ⟨"Post validation failed", 400⟩ := by
  simp only [addComment]
  rw [if_neg htext]
  simp only [hfind]
  have hbad : (!commentsValid
      (post.comments ++ [⟨user.id, jsTrim text⟩])) = true := by
    simp only [commentsValid, List.all_append, List.all_cons,
      List.all_nil, Bool.and_true]
    rw [htrim]
    simp
  rw [if_pos hbad]

theorem addComment_ok_aux (db : List Post) (pid : Nat) (user : Requester)
    (text : String) (post : Post)
    (hfind : db.find? (fun p => p.id == pid) = some post)
    (hprev : commentsValid post.comments = true)
    (htrim : jsTrim text ≠ "") :
    addComment db pid user text =
      Except.ok (⟨user.id, jsTrim text⟩,
        save db { post with
                    comments :=
                      post.comments ++ [⟨user.id, jsTrim text⟩] }) := by
  have htext : ¬((text == "") = true) := by
    simp only [beq_iff_eq]
    intro h
    subst h
    exact htrim rfl
  simp only [addComment]
  rw [if_neg htext]
  simp only [hfind]
  have hgood : ¬((!commentsValid
      (post.comments ++ [⟨user.id, jsTrim text⟩])) = true) := by
    simp only [commentsValid, List.all_append, List.all_cons,
      List.all_nil, Bool.and_true]
    simp [commentsValid] at hprev
    simp [htrim]
    exact hprev
  rw [if_neg hgood]
  rw [List.getLastD_concat]

/-- C1: addComment rejects empty or whitespace-only text with a 400
validation error and leaves the store (hence the post's comments)
unchanged; for any other text it appends a comment carrying the trimmed
text to the post and returns that new comment. -/
theorem addComment_validates_and_trims (db : List Post) (pid : Nat)
    (user : Requester) (text : String) (post : Post)
    (hfind : db.find? (fun p => p.id == pid) = some post)
    (hprev : commentsValid post.comments = true) :
    (jsTrim text = "" →
       errStatus (addComment db pid user text) = some 400 ∧
       stateAfter db (addComment db pid user text) = db) ∧
    (jsTrim text ≠ "" →
       addComment db pid user text =
         Except.ok (⟨user.id, jsTrim text⟩,
           save db { post with
                       comments :=
                         post.comments ++ [⟨user.id, jsTrim text⟩] })) := by
  constructor
  · intro htrim
    by_cases htext : (text == "") = true
    · rw [addComment_empty_aux db pid user text htext]
      exact ⟨rfl, rfl⟩
    · rw [addComment_whitespace_aux db pid user text post hfind htext htrim]
      exact ⟨rfl, rfl⟩
  · intro htrim
    exact addComment_ok_aux db pid user text post hfind hprev htrim

/-- C8: likePost and addComment check only that the post exists: for an
existing post, of any status, they succeed with no visibility or ownership
check; only a missing post yields the 404 not-found failure. -/
theorem engagement_ignores_status (db : List Post) (pid : Nat)
    (user : Requester) (now : Nat) (text : String) :
    (∀ post, db.find? (fun p => p.id == pid) = some post →
       isOkE (likePost db pid user now) = true ∧
       (commentsValid post.comments = true → jsTrim text ≠ "" →
          isOkE (addComment db pid user text) = true)) ∧
    (db.find? (fun p => p.id == pid) = none →
       likePost db pid user now = Except.error ⟨"Post not found", 404⟩ ∧
       (¬((text == "") = true) →
          addComment db pid user text =
            Except.error ⟨"Post not found", 404⟩)) := by
  constructor
  · intro post hfind
    constructor
    · simp [likePost, hfind, isOkE]
    · intro hprev htrim
      rw [addComment_ok_aux db pid user text post hfind hprev htrim]
      rfl
  · intro hfind
    constructor
    · simp only [likePost, hfind]
    · intro htext
      simp only [addComment]
      rw [if_neg htext]
      simp only [hfind]

/-- C10: getUserPosts fails with the 404 user-not-found error —
independently of the posts store — when the target user does not exist;
when the target exists it succeeds, and its post query restricts status to
published exactly when the requester is neither the target user nor an
admin. -/
theorem user_posts_lookup_and_restriction (users : List Nat) (db : List Post)
    (targetId : Nat) (requester : Option Requester)
    (storeSort : List Post → List Post) (pageQ limitQ : Option Int) :
    (users.contains targetId = false →
       getUserPosts users db targetId requester storeSort pageQ limitQ =
         Except.error ⟨"User not found", 404⟩) ∧
    (users.contains targetId = true →
       isOkE (getUserPosts users db targetId requester storeSort pageQ
         limitQ) = true) ∧
    ((userPostsQuery targetId requester).status = some Status.published ↔
       ¬ ∃ u, requester = some u ∧
         (u.id = targetId ∨ u.role = Role.admin)) := by
  refine ⟨?_, ?_, ?_⟩
  · intro h
    simp at h
    simp [getUserPosts, h]
  · intro h
    simp at h
    simp [getUserPosts, h, isOkE]
  · cases requester with
    | none => simp [userPostsQuery, userPostsRestricted]
    | some u =>
        simp only [userPostsQuery, userPostsRestricted]
        by_cases h1 : u.id = targetId
        · simp [h1]
        · by_cases h2 : u.role = Role.admin
          · simp [h1, h2]
          · simp [h1, h2]

theorem paginationOf_next_iff (page limit : Int) (total : Nat) :
    (paginationOf page limit total).next = some ⟨page + 1, limit⟩ ↔
      (page - 1) * limit + limit < (total : Int) := by
  by_cases h : (page - 1) * limit + limit < (total : Int)
  · simp [paginationOf, h]
  · simp [paginationOf, h]

theorem paginationOf_prev_iff (page limit : Int) (total : Nat) :
    (paginationOf page limit total).prev = some ⟨page - 1, limit⟩ ↔
      (page - 1) * limit > 0 := by
  by_cases h : (page - 1) * limit > 0
  · simp [paginationOf, h]
  · simp [paginationOf, h]

theorem paginationOf_next_eq_none (page limit : Int) (total : Nat)
    (h : ¬((page - 1) * limit + limit < (total : Int))) :
    (paginationOf page limit total).next = none := by
  simp [paginationOf, h]

/-- C6: the pagination metadata of getPosts (and of getUsers, which shares
the same block) contains next = {page + 1, limit} iff offset + limit <
total, and prev = {page - 1, limit} iff offset > 0, with offset =
(page - 1) * limit; total counts all documents matching the query,
independent of page and limit; in particular page = 2 with limit = 10
yields prev.page = 1 and omits next whenever total ≤ 20. -/
theorem pagination_metadata (textPred : String → Post → Bool)
    (storeSort : SortChoice → List Post → List Post)
    (searchPred : String → UserDoc → Bool)
    (storeSortU : List UserDoc → List UserDoc)
    (db : List Post) (dbU : List UserDoc) (params : ListParams)
    (paramsU : UsersParams) :
    ((getPosts textPred storeSort db params).pagination.next =
        some ⟨pageDefault params.page + 1, limitDefault params.limit⟩ ↔
      (pageDefault params.page - 1) * limitDefault params.limit +
          limitDefault params.limit <
        ((getPosts textPred storeSort db params).total : Int)) ∧
    ((getPosts textPred storeSort db params).pagination.prev =
        some ⟨pageDefault params.page - 1, limitDefault params.limit⟩ ↔
      (pageDefault params.page - 1) * limitDefault params.limit > 0) ∧
    ((getPosts textPred storeSort db params).total =
      (db.filter (postsQueryMatches textPred params)).length) ∧
    (params.page = some 2 → params.limit = some 10 →
      (getPosts textPred storeSort db params).pagination.prev =
          some ⟨1, 10⟩ ∧
      ((getPosts textPred storeSort db params).total ≤ 20 →
        (getPosts textPred storeSort db params).pagination.next = none)) ∧
    ((getUsers searchPred storeSortU dbU paramsU).pagination.next =
        some ⟨pageDefault paramsU.page + 1, limitDefault paramsU.limit⟩ ↔
      (pageDefault paramsU.page - 1) * limitDefault paramsU.limit +
          limitDefault paramsU.limit <
        ((getUsers searchPred storeSortU dbU paramsU).total : Int)) ∧
    ((getUsers searchPred storeSortU dbU paramsU).pagination.prev =
        some ⟨pageDefault paramsU.page - 1, limitDefault paramsU.limit⟩ ↔
      (pageDefault paramsU.page - 1) * limitDefault paramsU.limit > 0) ∧
    ((getUsers searchPred storeSortU dbU paramsU).total =
      (dbU.filter (usersQueryMatches searchPred paramsU)).length) := by
  refine ⟨?_, ?_, rfl, ?_, ?_, ?_, rfl⟩
  · exact paginationOf_next_iff _ _ _
  · exact paginationOf_prev_iff _ _ _
  · intro h2 h10
    obtain ⟨pg, lim, cat, tg, se, au, so⟩ := params
    simp only at h2 h10
    subst h2
    subst h10
    constructor
    · simp only [getPosts]
      norm_num [pageDefault, limitDefault, paginationOf]
    · intro htot
      simp only [getPosts] at htot ⊢
      apply paginationOf_next_eq_none
      norm_num [pageDefault, limitDefault]
      have hc : ((List.filter (postsQueryMatches textPred
          ⟨some 2, some 10, cat, tg, se, au, so⟩) db).length : Int) ≤ 20 := by
        exact_mod_cast htot
      omega
  · exact paginationOf_next_iff _ _ _
  · exact paginationOf_prev_iff _ _ _

theorem filter_keep_of_none (l : List Like) (uid : Nat)
    (h : l.any (fun x => x.user == uid) = false) :
    l.filter (fun x => !(x.user == uid)) = l := by
  induction l with
  | nil => rfl
  | cons a t ih =>
      simp only [List.any_cons, Bool.or_eq_false_iff] at h
      obtain ⟨h1, h2⟩ := h
      have hk : (!(a.user == uid)) = true := by simp [h1]
      simp only [List.filter_cons, hk, if_true]
      rw [ih h2]

theorem filter_count_zero_any_false (l : List Like) (uid : Nat)
    (h : (l.filter (fun x => x.user == uid)).length = 0) :
    l.any (fun x => x.user == uid) = false := by
  induction l with
  | nil => rfl
  | cons a t ih =>
      simp only [List.filter_cons] at h
      by_cases ha : (a.user == uid) = true
      · rw [if_pos ha] at h
        simp at h
      · rw [if_neg ha] at h
        simp only [List.any_cons, Bool.or_eq_false_iff]
        refine ⟨?_, ih h⟩
        simpa using ha

theorem remove_like_length (l : List Like) (uid : Nat)
    (hone : (l.filter (fun x => x.user == uid)).length ≤ 1)
    (hany : l.any (fun x => x.user == uid) = true) :
    (l.filter (fun x => !(x.user == uid))).length + 1 = l.length := by
  induction l with
  | nil => simp at hany
  | cons a t ih =>
      by_cases ha : (a.user == uid) = true
      · have h0 : (t.filter (fun x => x.user == uid)).length = 0 := by
          simp only [List.filter_cons, ha, if_true, List.length_cons] at hone
          omega
        have hkeep : t.filter (fun x => !(x.user == uid)) = t :=
          filter_keep_of_none t uid (filter_count_zero_any_false t uid h0)
        have hdrop : (!(a.user == uid)) = false := by simp [ha]
        simp only [List.filter_cons, hdrop, Bool.false_eq_true, if_false,
          List.length_cons]
        rw [hkeep]
      · have hone2 : (t.filter (fun x => x.user == uid)).length ≤ 1 := by
          simp only [List.filter_cons] at hone
          rw [if_neg ha] at hone
          exact hone
        have hany2 : t.any (fun x => x.user == uid) = true := by
          simp only [List.any_cons, Bool.or_eq_true] at hany
          rcases hany with h | h
          · exact absurd h ha
          · exact h
        have hkeep : (!(a.user == uid)) = true := by simp [ha]
        simp only [List.filter_cons, hkeep, if_true, List.length_cons]
        have := ih hone2 hany2
        omega

theorem any_filter_not_self (l : List Like) (uid : Nat) :
    (l.filter (fun x => !(x.user == uid))).any
      (fun x => x.user == uid) = false := by
  induction l with
  | nil => rfl
  | cons a t ih =>
      by_cases ha : (a.user == uid) = true
      · have hdrop : (!(a.user == uid)) = false := by simp [ha]
        simp only [List.filter_cons, hdrop, Bool.false_eq_true, if_false]
        exact ih
      · have hkeep : (!(a.user == uid)) = true := by simp [ha]
        simp only [List.filter_cons, hkeep, if_true, List.any_cons, ih,
          Bool.or_false]
        simpa using ha

/-- C4: toggling a like twice returns the post to its original like-count
(under the data-model invariant that the user appears at most once in
likes), the second toggle reporting isLiked = false when the user had not
liked the post initially; each single toggle performs exactly one
transition — count decreases by one on removal, increases by one on append
— and reports the new isLiked flag and total count. -/
theorem like_toggle_twice (db : List Post) (pid : Nat) (user : Requester)
    (t1 t2 : Nat) (post : Post)
    (hfind : db.find? (fun p => p.id == pid) = some post)
    (hone : (post.likes.filter (fun l => l.user == user.id)).length ≤ 1) :
    ((okLike (likePost db pid user t1)).map (fun r => r.isLiked) =
       some (!(post.likes.any (fun l => l.user == user.id)))) ∧
    (post.likes.any (fun l => l.user == user.id) = true →
       (okLike (likePost db pid user t1)).map (fun r => r.likesCount) =
         some (post.likes.length - 1)) ∧
    (post.likes.any (fun l => l.user == user.id) = false →
       (okLike (likePost db pid user t1)).map (fun r => r.likesCount) =
         some (post.likes.length + 1)) ∧
    ((okLike (likePost (stateAfter db (likePost db pid user t1)) pid user
        t2)).map (fun r => r.likesCount) = some post.likes.length) ∧
    (post.likes.any (fun l => l.user == user.id) = false →
       (okLike (likePost (stateAfter db (likePost db pid user t1)) pid user
          t2)).map (fun r => r.isLiked) = some false) := by
  by_cases hAny : post.likes.any (fun l => l.user == user.id) = true
  · have e1 : likePost db pid user t1 =
        Except.ok ({ message := "Post unliked"
                     likesCount := (post.likes.filter
                       (fun l => !(l.user == user.id))).length
                     isLiked := false },
          save db { post with likes := (post.likes.filter
                       (fun l => !(l.user == user.id))) }) := by
      simp [likePost, hfind, hAny]
    have hlen := remove_like_length post.likes user.id hone hAny
    have find2 : (save db { post with likes := (post.likes.filter
          (fun l => !(l.user == user.id))) }).find?
          (fun p => p.id == pid) =
        some { post with likes := (post.likes.filter
          (fun l => !(l.user == user.id))) } :=
      find?_save db _ post pid rfl hfind
    have hAny2 : ({ post with likes := (post.likes.filter
          (fun l => !(l.user == user.id))) } : Post).likes.any
          (fun l => l.user == user.id) = false :=
      any_filter_not_self post.likes user.id
    have e2 : likePost (stateAfter db (likePost db pid user t1)) pid user
        t2 =
        Except.ok ({ message := "Post liked"
                     likesCount := (post.likes.filter
                       (fun l => !(l.user == user.id))).length + 1
                     isLiked := true },
          save (save db { post with likes := (post.likes.filter
                  (fun l => !(l.user == user.id))) })
            { post with likes := (post.likes.filter
                (fun l => !(l.user == user.id)) ++ [⟨user.id, t2⟩]) }) := by
      rw [e1]
      show likePost (save db { post with likes := (post.likes.filter
          (fun l => !(l.user == user.id))) }) pid user t2 = _
      simp [likePost, find2, hAny2]
    refine ⟨?_, ?_, ?_, ?_, ?_⟩
    · rw [e1, hAny]
      rfl
    · intro _
      rw [e1]
      simp only [okLike, Option.map_some]
      have : (post.likes.filter (fun l => !(l.user == user.id))).length =
          post.likes.length - 1 := by omega
      rw [this]
      rfl
    · intro hco
      rw [hco] at hAny
      cases hAny
    · rw [e2]
      simp only [okLike, Option.map_some]
      rw [hlen]
      rfl
    · intro hco
      rw [hco] at hAny
      cases hAny
  · have hFalse : post.likes.any (fun l => l.user == user.id) = false := by
      cases h : post.likes.any (fun l => l.user == user.id)
      · rfl
      · exact absurd h hAny
    have e1 : likePost db pid user t1 =
        Except.ok ({ message := "Post liked"
                     likesCount := post.likes.length + 1
                     isLiked := true },
          save db { post with likes := (post.likes ++ [⟨user.id, t1⟩]) }) := by
      simp [likePost, hfind, hFalse]
    have find2 : (save db { post with likes :=
          (post.likes ++ [⟨user.id, t1⟩]) }).find? (fun p => p.id == pid) =
        some { post with likes := (post.likes ++ [⟨user.id, t1⟩]) } :=
      find?_save db _ post pid rfl hfind
    have hAny2 : ({ post with likes := (post.likes ++ [⟨user.id, t1⟩]) } :
          Post).likes.any (fun l => l.user == user.id) = true := by
      simp [List.any_append]
    have hback : (post.likes ++ [(⟨user.id, t1⟩ : Like)]).filter
        (fun l => !(l.user == user.id)) = post.likes := by
      rw [List.filter_append]
      rw [filter_keep_of_none post.likes user.id hFalse]
      simp
    have e2 : likePost (stateAfter db (likePost db pid user t1)) pid user
        t2 =
        Except.ok ({ message := "Post unliked"
                     likesCount := post.likes.length
                     isLiked := false },
          save (save db { post with likes :=
              (post.likes ++ [⟨user.id, t1⟩]) })
            { post with likes := post.likes }) := by
      rw [e1]
      show likePost (save db { post with likes :=
          (post.likes ++ [⟨user.id, t1⟩]) }) pid user t2 = _
      simp only [likePost, find2, hAny2, if_true, hback]
      rfl
    refine ⟨?_, ?_, ?_, ?_, ?_⟩
    · rw [e1, hFalse]
      rfl
    · intro hco
      rw [hco] at hFalse
      cases hFalse
    · intro _
      rw [e1]
      rfl
    · rw [e2]
      rfl
    · intro _
      rw [e2]
      rfl

theorem memB_map_eq_any (l : List Like) (uid : Nat) :
    memB (l.map Like.user) uid = l.any (fun x => x.user == uid) := by
  induction l with
  | nil => rfl
  | cons a t ih => simp only [List.map_cons, memB, List.any_cons, ih]

theorem memB_append (l1 l2 : List Nat) (a : Nat) :
    memB (l1 ++ l2) a = (memB l1 a || memB l2 a) := by
  induction l1 with
  | nil => simp [memB]
  | cons b t ih => simp [memB, ih, Bool.or_assoc]

theorem memB_filter_imp (l : List Like) (q : Like → Bool) (a : Nat)
    (h : memB ((l.filter q).map Like.user) a = true) :
    memB (l.map Like.user) a = true := by
  induction l with
  | nil => simp [memB] at h
  | cons x t ih =>
      simp only [List.filter_cons] at h
      simp only [List.map_cons, memB, Bool.or_eq_true]
      by_cases hq : q x = true
      · rw [if_pos hq] at h
        simp only [List.map_cons, memB, Bool.or_eq_true] at h
        rcases h with h | h
        · exact Or.inl h
        · exact Or.inr (ih h)
      · rw [if_neg hq] at h
        exact Or.inr (ih h)

theorem nodupB_filter (l : List Like) (q : Like → Bool)
    (h : nodupB (l.map Like.user) = true) :
    nodupB ((l.filter q).map Like.user) = true := by
  induction l with
  | nil => rfl
  | cons x t ih =>
      simp only [List.map_cons, nodupB, Bool.and_eq_true] at h
      obtain ⟨hx, ht⟩ := h
      by_cases hq : q x = true
      · simp only [List.filter_cons, hq, if_true, List.map_cons, nodupB,
          Bool.and_eq_true]
        refine ⟨?_, ih ht⟩
        simp only [Bool.not_eq_true'] at hx ⊢
        cases hmf : memB ((t.filter q).map Like.user) x.user
        · rfl
        · rw [memB_filter_imp t q x.user hmf] at hx
          cases hx
      · simp only [List.filter_cons]
        rw [if_neg hq]
        exact ih ht

theorem nodupB_append_single (m : List Nat) (a : Nat)
    (h1 : nodupB m = true) (h2 : memB m a = false) :
    nodupB (m ++ [a]) = true := by
  induction m with
  | nil => simp [nodupB, memB]
  | cons b t ih =>
      simp only [memB, Bool.or_eq_false_iff] at h2
      obtain ⟨hba, hta⟩ := h2
      simp only [nodupB, Bool.and_eq_true] at h1
      obtain ⟨hbt, ht⟩ := h1
      simp only [List.cons_append, nodupB, Bool.and_eq_true]
      refine ⟨?_, ih ht hta⟩
      have hm : memB (t ++ [a]) b = false := by
        rw [memB_append]
        simp only [Bool.not_eq_true'] at hbt
        rw [hbt]
        simp only [memB, Bool.or_false, Bool.false_or]
        rcases eq_or_ne a b with hab | hab
        · subst hab
          simp at hba
        · simp [hab]
      simp [hm]

theorem likesOk_save (db : List Post) (p : Post)
    (h : likesOk db = true) (hp : nodupB (p.likes.map Like.user) = true) :
    likesOk (save db p) = true := by
  simp only [likesOk, save, List.all_eq_true] at h ⊢
  intro q hq
  obtain ⟨q0, hq0, rfl⟩ := List.mem_map.mp hq
  by_cases hid : (q0.id == p.id) = true
  · rw [if_pos hid]
    exact hp
  · rw [if_neg hid]
    exact h q0 hq0

theorem likesOk_step (db : List Post) (pid : Nat) (u : Requester) (t : Nat)
    (h : likesOk db = true) :
    likesOk (stateAfter db (likePost db pid u t)) = true := by
  cases hfind : db.find? (fun p => p.id == pid) with
  | none =>
      have e : likePost db pid u t =
          Except.error ⟨"Post not found", 404⟩ := by
        simp [likePost, hfind]
      rw [e]
      exact h
  | some post =>
      have hpost : nodupB (post.likes.map Like.user) = true := by
        have hmem : post ∈ db := List.mem_of_find?_eq_some hfind
        exact List.all_eq_true.mp h post hmem
      by_cases hAny : post.likes.any (fun l => l.user == u.id) = true
      · have e : likePost db pid u t =
            Except.ok ({ message := "Post unliked"
                         likesCount := (post.likes.filter
                           (fun l => !(l.user == u.id))).length
                         isLiked := false },
              save db { post with likes := (post.likes.filter
                           (fun l => !(l.user == u.id))) }) := by
          simp [likePost, hfind, hAny]
        rw [e]
        exact likesOk_save db _ h
          (nodupB_filter post.likes (fun l => !(l.user == u.id)) hpost)
      · have hFalse : post.likes.any (fun l => l.user == u.id) = false := by
          cases hx : post.likes.any (fun l => l.user == u.id)
          · rfl
          · exact absurd hx hAny
        have e : likePost db pid u t =
            Except.ok ({ message := "Post liked"
                         likesCount := post.likes.length + 1
                         isLiked := true },
              save db { post with likes :=
                (post.likes ++ [⟨u.id, t⟩]) }) := by
          simp [likePost, hfind, hFalse]
        rw [e]
        apply likesOk_save db _ h
        show nodupB ((post.likes ++ [(⟨u.id, t⟩ : Like)]).map
          Like.user) = true
        rw [List.map_append]
        apply nodupB_append_single _ _ hpost
        rw [memB_map_eq_any]
        exact hFalse

/-- C5: when every post's likes list mentions each userId at most once,
any sequence of like toggles preserves that invariant: each toggle either
removes all of the requester's entries or appends a single entry for a
requester not yet present. -/
theorem likes_at_most_once_preserved (db : List Post)
    (ops : List (Nat × Requester × Nat)) (h : likesOk db = true) :
    likesOk (runToggles db ops) = true := by
  induction ops generalizing db with
  | nil => exact h
  | cons op rest ih =>
      obtain ⟨pid, u, t⟩ := op
      exact ih _ (likesOk_step db pid u t h)

/-- A concrete valid update payload without an author field. -/
def cBodyNoAuthor : PostBody :=
  { title := some "Updated Title"
    content := some longContent
    excerpt := none
    category := none
    tags := none
    status := none
    author := none }

/-- The concrete example post in published state. -/
def pubPost : Post := { cPost with status := Status.published }

/-- Concrete listing parameters: page 2, limit 10, no filters. -/
def exParams : ListParams :=
  { page := some 2
    limit := some 10
    category := none
    tags := none
    search := none
    author := none
    sort := none }

/-- Witness for C1: adding "  hi  " to the concrete post stores the
trimmed text "hi" and returns the new comment. -/
theorem addComment_validates_and_trims_witness :
    ([cPost].find? (fun p => p.id == 1) = some cPost) ∧
    commentsValid cPost.comments = true ∧
    addComment [cPost] 1 ⟨5, Role.user⟩ "  hi  " =
      Except.ok (⟨5, "hi"⟩,
        save [cPost]
          { cPost with comments := (cPost.comments ++ [⟨5, "hi"⟩]) }) := by
  refine ⟨rfl, rfl, ?_⟩
  exact (addComment_validates_and_trims [cPost] 1 ⟨5, Role.user⟩ "  hi  "
    cPost rfl rfl).2 (by decide)

/-- Witness for C2 (amended): an authorized update without an author field
keeps the author, at a concrete input. -/
theorem author_from_requester_and_update_witness :
    cBodyNoAuthor.author = none ∧
    ([cPost].find? (fun p => p.id == 1) = some cPost) ∧
    isOkE (updatePost [cPost] 1 cBodyNoAuthor ⟨1, Role.user⟩) = true ∧
    resultAuthor (updatePost [cPost] 1 cBodyNoAuthor ⟨1, Role.user⟩) =
      some cPost.author := by
  refine ⟨rfl, rfl, by decide, ?_⟩
  exact (author_from_requester_and_update [cPost] 1 cBodyNoAuthor
    ⟨1, Role.user⟩ 2 0 "s").1 rfl cPost rfl (by decide)

/-- Witness for C3: an anonymous read of the concrete draft post is a 404
not-found. -/
theorem unpublished_read_is_not_found_witness :
    ([cPost].find? (fun p => p.id == 1) = some cPost) ∧
    cPost.status ≠ Status.published ∧
    getPost [cPost] 1 none = Except.error ⟨"Post not found", 404⟩ :=
  ⟨rfl, by decide,
    (unpublished_read_is_not_found [cPost] 1 "hello-world" none).1 cPost rfl
      (by decide) (Or.inl rfl)⟩

/-- Witness for C4: toggling twice on the concrete post restores the
original like-count. -/
theorem like_toggle_twice_witness :
    ([cPost].find? (fun p => p.id == 1) = some cPost) ∧
    (cPost.likes.filter (fun l => l.user == 5)).length ≤ 1 ∧
    (okLike (likePost (stateAfter [cPost] (likePost [cPost] 1
        ⟨5, Role.user⟩ 10)) 1 ⟨5, Role.user⟩ 11)).map
      (fun r => r.likesCount) = some cPost.likes.length :=
  ⟨rfl, by decide,
    (like_toggle_twice [cPost] 1 ⟨5, Role.user⟩ 10 11 cPost rfl
      (by decide)).2.2.2.1⟩

/-- Witness for C5: a concrete two-toggle sequence preserves the
at-most-once invariant. -/
theorem likes_at_most_once_preserved_witness :
    likesOk [cPost] = true ∧
    likesOk (runToggles [cPost]
      [(1, ⟨5, Role.user⟩, 3), (1, ⟨6, Role.user⟩, 4)]) = true :=
  ⟨by decide, likes_at_most_once_preserved [cPost]
    [(1, ⟨5, Role.user⟩, 3), (1, ⟨6, Role.user⟩, 4)] (by decide)⟩

/-- Witness for C6: page 2 with limit 10 carries prev = {1, 10} at a
concrete input. -/
theorem pagination_metadata_witness :
    exParams.page = some 2 ∧ exParams.limit = some 10 ∧
    (getPosts (fun _ _ => true) (fun _ l => l) [cPost]
      exParams).pagination.prev = some ⟨1, 10⟩ := by
  refine ⟨rfl, rfl, ?_⟩
  exact ((pagination_metadata (fun _ _ => true) (fun _ l => l)
    (fun _ _ => true) (fun l => l) [cPost] [] exParams
    ⟨none, none, none, none, none⟩).2.2.2.1 rfl rfl).1

/-- Witness for C7: a non-owner non-admin mutation on the concrete post is
a 403 authorization error. -/
theorem mutate_auth_errors_witness :
    ([cPost].find? (fun p => p.id == 1) = some cPost) ∧
    cPost.author ≠ 2 ∧
    updatePost [cPost] 1 cBodyNoAuthor ⟨2, Role.user⟩ =
      Except.error ⟨"Not authorized to update this post", 403⟩ ∧
    deletePost [cPost] 1 ⟨2, Role.user⟩ =
      Except.error ⟨"Not authorized to delete this post", 403⟩ :=
  ⟨rfl, by decide,
    (mutate_auth_errors [cPost] 1 cBodyNoAuthor ⟨2, Role.user⟩).2 cPost rfl
      (by decide) (by decide)⟩

/-- Witness for C8: liking the concrete draft post succeeds. -/
theorem engagement_ignores_status_witness :
    ([cPost].find? (fun p => p.id == 1) = some cPost) ∧
    isOkE (likePost [cPost] 1 ⟨5, Role.user⟩ 7) = true :=
  ⟨rfl, ((engagement_ignores_status [cPost] 1 ⟨5, Role.user⟩ 7 "x").1 cPost
    rfl).1⟩

/-- Witness for C9: a non-author read of the concrete published post
raises the stored views from 0 to 1. -/
theorem views_increment_on_read_witness :
    ([pubPost].find? (fun p => p.id == 1) = some pubPost) ∧
    isOkE (getPost [pubPost] 1 (some ⟨2, Role.user⟩)) = true ∧
    viewsOf (stateAfter [pubPost] (getPost [pubPost] 1
      (some ⟨2, Role.user⟩))) 1 = some (pubPost.views + 1) := by
  refine ⟨rfl, by decide, ?_⟩
  exact (((views_increment_on_read [pubPost] 1 "hello-world"
    (some ⟨2, Role.user⟩)).1 pubPost rfl (by decide)).1
    (Or.inr ⟨⟨2, Role.user⟩, rfl, by decide⟩)).2

/-- Witness for C10: a request for the posts of a missing user is a 404,
independent of the posts store. -/
theorem user_posts_lookup_and_restriction_witness :
    ([(7 : Nat)].contains 8 = false) ∧
    getUserPosts [7] [cPost] 8 none (fun l => l) (some 1) (some 10) =
      Except.error ⟨"User not found", 404⟩ :=
  ⟨by decide, (user_posts_lookup_and_restriction [7] [cPost] 8 none
    (fun l => l) (some 1) (some 10)).1 (by decide)⟩

end Blog
